import Mathlib

/-!
Verification of the ft-document-generator repository: a shallow embedding of
its pure derivation logic (environment detection, SKU lookup tables, resource
naming, record grouping, data-file discovery) and of the effect structure of
the storage fetcher, together with theorems settling the specification claims.

Conventions of the embedding:
* JavaScript strings that may be `undefined` become `Option String`; the
  JavaScript `x || d` fallback (which also replaces the empty string) becomes
  `jsOr`, and `!s` truthiness tests on strings test `none` or `""`.
* The fallible Azure SDK calls of a fetcher become `Except String α` inputs;
  the fetcher body is a pure function of those injected results, returning the
  list of file writes it performs together with its outcome.
-/

namespace DocGen

/-- Case-sensitive substring test, the embedding of JavaScript
`String.prototype.includes`. -/
def containsSub (s pat : String) : Bool :=
  decide (pat.toList <:+: s.toList)

/-- Suffix test, the embedding of JavaScript `String.prototype.endsWith`. -/
def endsWithS (s pat : String) : Bool :=
  decide (pat.toList <:+ s.toList)

/-- Embedding of the JavaScript fallback pattern `o || d`: it yields `d` not
only when `o` is absent but also when it is the empty string (which is falsy). -/
def jsOr (o : Option String) (d : String) : String :=
  match o with
  | some s => if s.isEmpty then d else s
  | none => d

/-- Truthiness normalisation for optional strings: `some s` survives only when
`s` is non-empty, mirroring JavaScript `if (x)` on an optional string field. -/
def jsStr (o : Option String) : Option String :=
  match o with
  | some s => if s.isEmpty then none else some s
  | none => none

/-- Character-wise lowercasing, the embedding of JavaScript
`String.prototype.toLowerCase` on the ASCII names this system handles. -/
def toLowerS (s : String) : String :=
  String.mk (s.toList.map Char.toLower)

/-- Split a character list on a separator character, with JavaScript
`String.prototype.split` semantics (an empty input yields one empty field,
separators at the edges yield empty fields). -/
def splitOnChar (sep : Char) : List Char → List (List Char)
  | [] => [[]]
  | c :: cs =>
    let rest := splitOnChar sep cs
    if c = sep then [] :: rest
    else
      match rest with
      | [] => [[c]]
      | r :: rs => (c :: r) :: rs

/-- String version of `splitOnChar`, the embedding of `s.split(sep)` for a
one-character separator. -/
def splitChar (s : String) (sep : Char) : List String :=
  (splitOnChar sep s.toList).map String.mk

/-- Embedding of `s.split('/').pop()`: the last `/`-separated segment. -/
def lastSegment (s : String) : String :=
  (splitChar s '/').getLastD ""

/-- Environment detection of the alert fetcher (`04-alert.ts`): lowercases the
resource name and tests the `prod` substrings before the `test` substrings,
returning the string `"prod"`, `"test"` or `"unknown"`. -/
def detectEnvironment (resourceName : String) : String :=
  let normalizedName := toLowerS resourceName
  if containsSub normalizedName "-prod-" || endsWithS normalizedName "-prod" ||
      containsSub normalizedName "prod" then
    "prod"
  else if containsSub normalizedName "-test-" || endsWithS normalizedName "-test" ||
      containsSub normalizedName "test" then
    "test"
  else
    "unknown"

/-- Alert environment filter of the alert fetcher (`04-alert.ts`): admits every
alert when the name is empty or the target environment is `"unknown"`; for a
`"prod"` target requires a `prod` substring and no `test` substring; for a
`"test"` target admits `test`-containing names and names containing neither
`prod` nor `production`. -/
def isAlertForEnvironment (alertName targetEnvironment : String) : Bool :=
  if alertName.isEmpty || targetEnvironment == "unknown" then
    true
  else
    let normalizedAlertName := toLowerS alertName
    let normalizedTargetEnv := toLowerS targetEnvironment
    if normalizedTargetEnv == "prod" then
      containsSub normalizedAlertName "prod" && !containsSub normalizedAlertName "test"
    else if normalizedTargetEnv == "test" then
      containsSub normalizedAlertName "test" ||
        (!containsSub normalizedAlertName "prod" &&
         !containsSub normalizedAlertName "production")
    else
      true

/-- Storage SLA derivation (`storage.ts`, `getStorageSLA`): `'-'` for a missing
or empty SKU, then tier `Hot` and `Cool` decide the value, and every remaining
SKU (whether or not it contains `Standard`) falls to `'99.5% - 99.9%'`. -/
def getStorageSLA (sku accessTier : Option String) : String :=
  match sku with
  | none => "-"
  | some s =>
    if s.isEmpty then "-"
    else if accessTier = some "Hot" then
      if containsSub s "GRS" || containsSub s "RAGRS" then "99.9%" else "99.9%"
    else if accessTier = some "Cool" then "99.0%"
    else if containsSub s "Standard" then "99.5% - 99.9%"
    else "99.5% - 99.9%"

/-- Storage replication derivation (`storage.ts`, `getReplicationDetails`). -/
def getReplicationDetails (sku secondaryLocation : Option String) : String × String :=
  match sku with
  | none => ("-", "-")
  | some s =>
    if s.isEmpty then ("-", "-")
    else if s = "Standard_LRS" then ("3 local replicas", "Single region")
    else if s = "Standard_GRS" || s = "Standard_RAGRS" then
      ("At least 6 replicas",
        match jsStr secondaryLocation with
        | some sec => "Primary – " ++ "" ++ "\nSecondary – " ++ sec
        | none => "Geo-redundant")
    else if s = "Standard_ZRS" then ("3 zone replicas", "Single region (zone-redundant)")
    else if s = "Standard_GZRS" || s = "Standard_RAGZRS" then
      ("At least 6 replicas (zone + geo)",
        match jsStr secondaryLocation with
        | some sec => "Primary – " ++ "" ++ "\nSecondary – " ++ sec
        | none => "Zone + Geo redundant")
    else ("At least 1", "-")

/-- Storage encryption-type derivation (`storage.ts`, `getEncryptionType`). -/
def getEncryptionType (keySource : Option String) : String :=
  match keySource with
  | some ks => if ks = "Microsoft.Keyvault" then "Customer-managed keys"
               else "Microsoft-managed keys"
  | none => "Microsoft-managed keys"

/-- Basic-tier Redis capacity table (`03-redis.ts`, the `switch` under
family `C`, name `Basic`): `none` means the `switch` falls through. -/
def basicRedisTable : Nat → Option (String × String)
  | 0 => some ("250 MB", "Up to 256")
  | 1 => some ("1 GB", "Up to 1,000")
  | 2 => some ("2.5 GB", "Up to 2,000")
  | 3 => some ("6 GB", "Up to 5,000")
  | 4 => some ("13 GB", "Up to 10,000")
  | 5 => some ("26 GB", "Up to 15,000")
  | 6 => some ("53 GB", "Up to 20,000")
  | _ => none

/-- Standard-tier Redis capacity table (`03-redis.ts`, the `switch` under
family `C`, name `Standard` — duplicated verbatim in the source). -/
def standardRedisTable : Nat → Option (String × String)
  | 0 => some ("250 MB", "Up to 256")
  | 1 => some ("1 GB", "Up to 1,000")
  | 2 => some ("2.5 GB", "Up to 2,000")
  | 3 => some ("6 GB", "Up to 5,000")
  | 4 => some ("13 GB", "Up to 10,000")
  | 5 => some ("26 GB", "Up to 15,000")
  | 6 => some ("53 GB", "Up to 20,000")
  | _ => none

/-- Premium-tier Redis capacity table (`03-redis.ts`, the `switch` under
family `P`, name `Premium`). -/
def premiumRedisTable : Nat → Option (String × String)
  | 1 => some ("6 GB", "Up to 7,500")
  | 2 => some ("13 GB", "Up to 15,000")
  | 3 => some ("26 GB", "Up to 30,000")
  | 4 => some ("53 GB", "Up to 40,000")
  | 5 => some ("120 GB", "Up to 40,000")
  | _ => none

/-- Redis SKU lookup (`03-redis.ts`, `getSkuDetails`): memory size and maximum
connections for the known Basic/Standard (family `C`) and Premium (family `P`)
capacities, with `('-','-')` when an input is missing or an input string is
empty, and the constructed `"{name} {family}{capacity}"` label whenever the
matching `switch` falls through or no tier matches. -/
def getSkuDetails (skuName skuFamily : Option String) (skuCapacity : Option Nat) :
    String × String :=
  match skuName, skuFamily, skuCapacity with
  | some name, some family, some capacity =>
    if name.isEmpty || family.isEmpty then ("-", "-")
    else if family = "C" ∧ name = "Basic" then
      (basicRedisTable capacity).getD (name ++ " " ++ family ++ toString capacity, "-")
    else if family = "C" ∧ name = "Standard" then
      (standardRedisTable capacity).getD (name ++ " " ++ family ++ toString capacity, "-")
    else if family = "P" ∧ name = "Premium" then
      (premiumRedisTable capacity).getD (name ++ " " ++ family ++ toString capacity, "-")
    else (name ++ " " ++ family ++ toString capacity, "-")
  | _, _, _ => ("-", "-")

/-- Membership in the documented Redis capacity tables: Basic/Standard of
family `C` cover capacities 0 through 6, Premium of family `P` covers 1
through 5. -/
def knownRedisSku (name family : String) (capacity : Nat) : Bool :=
  (family = "C" && (name = "Basic" || name = "Standard") && capacity ≤ 6) ||
  (family = "P" && name = "Premium" && 1 ≤ capacity && capacity ≤ 5)

/-- Security pricing result as returned by the Defender pricing call. -/
structure SecurityPricing where
  pricingTier : Option String
deriving DecidableEq, Repr

/-- Defender status mapping of the storage fetcher (`storage.ts`): tier
`Standard` yields the string `'Enable'`, anything else `'Disabled'`, and a
failed pricing call keeps the initialised default `'Disabled'`. -/
def storageDefenderStatus (pricing : Except String SecurityPricing) : String :=
  match pricing with
  | .ok p => if p.pricingTier = some "Standard" then "Enable" else "Disabled"
  | .error _ => "Disabled"

/-- Defender status mapping of the web-server fetcher (`web-server.ts`): tier
`Standard` or `Free` yields `'Enabled'`, anything else `'Disabled'`, and a
failed pricing call keeps the default `'Disabled'`. -/
def webServerDefenderStatus (pricing : Except String SecurityPricing) : String :=
  match pricing with
  | .ok p =>
    if p.pricingTier = some "Standard" || p.pricingTier = some "Free" then "Enabled"
    else "Disabled"
  | .error _ => "Disabled"

/-- Defender status mapping of the database fetcher (`01-database.ts`): same
rule as the web-server fetcher, tiers `Standard` and `Free` both yield
`'Enabled'`. -/
def databaseDefenderStatus (pricing : Except String SecurityPricing) : String :=
  match pricing with
  | .ok p =>
    if p.pricingTier = some "Standard" || p.pricingTier = some "Free" then "Enabled"
    else "Disabled"
  | .error _ => "Disabled"

/-- Flat specification record, the shared output schema of every fetcher
(`types.ts`, `SpecificationData` element). -/
structure SpecRecord where
  sectionName : String
  title : String
  value : String
deriving DecidableEq, Repr

/-- Ordered record list written by a fetcher and read by the renderer. -/
abbrev SpecificationData := List SpecRecord

/-- One step of the `reduce` in `groupBySection` (`document-generator.ts`):
append the item to the entry of its section key if one exists, otherwise add a
new key at the end.  This records the object's keys in insertion order; the
enumeration order used when rendering is modelled separately by
`objectEntries`. -/
def addToGroups (acc : List (String × SpecificationData)) (item : SpecRecord) :
    List (String × SpecificationData) :=
  match acc with
  | [] => [(item.sectionName, [item])]
  | (k, items) :: rest =>
    if k = item.sectionName then (k, items ++ [item]) :: rest
    else (k, items) :: addToGroups rest item

/-- Grouping helper of the renderer (`document-generator.ts`,
`groupBySection`): a `reduce` into a string-keyed object, modelled as an
association list from section name to all records carrying that section, with
keys listed in insertion order. -/
def groupBySection (data : SpecificationData) : List (String × SpecificationData) :=
  data.foldl addToGroups []

/-- Lookup within grouping results: the record list stored under a section
name, or `[]` when the name is absent. -/
def lookupGroup (s : String) : List (String × SpecificationData) → SpecificationData
  | [] => []
  | (k, items) :: rest => if k = s then items else lookupGroup s rest

/-- Numeric value of a digit-string key. -/
def keyNumber (s : String) : Nat :=
  s.toList.foldl (fun acc c => acc * 10 + (c.toNat - 48)) 0

/-- ECMAScript array-index test for an object key: the canonical decimal
representation (no leading zero except `"0"` itself) of an integer below
2^32 - 1.  `Object.entries` enumerates such keys before all others. -/
def isArrayIndexKey (s : String) : Bool :=
  match s.toList with
  | [] => false
  | c :: cs =>
    (c :: cs).all Char.isDigit && (cs.isEmpty || c != '0') &&
      decide (keyNumber s < 4294967295)

/-- Enumeration order of `Object.entries` on a plain object (ECMAScript
`OrdinaryOwnPropertyKeys`): array-index keys first in ascending numeric
order, then the remaining keys in insertion order. -/
def objectEntries (l : List (String × SpecificationData)) :
    List (String × SpecificationData) :=
  List.insertionSort (fun a b => keyNumber a.1 ≤ keyNumber b.1)
    (l.filter (fun p => isArrayIndexKey p.1)) ++
    l.filter (fun p => !isArrayIndexKey p.1)

/-- Row groups as rendered by `generateSpecificationTable`: the renderer
iterates `Object.entries` of the grouped object, emitting one merged
(row-spanned) group per entry, whose span is the entry's record count. -/
def tableRowGroups (data : SpecificationData) : List (String × Nat) :=
  (objectEntries (groupBySection data)).map (fun g => (g.1, g.2.length))

/-- First-occurrence deduplication of a list of section names, used to state
the order of the groups produced by `groupBySection`. -/
def firstDedup (l : List String) : List String :=
  l.foldl (fun acc s => if s ∈ acc then acc else acc ++ [s]) []

/-- Uppercase the first character of a word, the embedding of
`word.charAt(0).toUpperCase() + word.slice(1)`. -/
def capitalizeWord (w : String) : String :=
  match w.toList with
  | [] => ""
  | c :: cs => String.mk (c.toUpper :: cs)

/-- Remove the first occurrence of `pat` from `l`, the embedding of
`String.prototype.replace` with a plain-string pattern and empty replacement. -/
def removeFirstOccurrence : List Char → List Char → List Char
  | [], _ => []
  | c :: cs, pat =>
    if pat.isPrefixOf (c :: cs) then (c :: cs).drop pat.length
    else c :: removeFirstOccurrence cs pat

/-- String version of `removeFirstOccurrence`: `s.replace(pat, '')`. -/
def replaceFirst (s pat : String) : String :=
  String.mk (removeFirstOccurrence s.toList pat.toList)

/-- Title derivation of auto-discovery (`document-generator.ts`,
`loadDataFiles`): remove the first occurrence of `-data.json`, split on
hyphens, capitalize each token, join with spaces and append
`' Specification'`. -/
def deriveTitle (filename : String) : String :=
  String.intercalate " " ((splitChar (replaceFirst filename "-data.json") '-').map capitalizeWord)
    ++ " Specification"

/-- Title derivation as the specification words it: strip the `-data.json`
SUFFIX (rather than the first occurrence) before splitting.  Used only to
compare against `deriveTitle`. -/
def deriveTitleSpec (filename : String) : String :=
  String.intercalate " "
    ((splitChar (String.mk (filename.toList.take (filename.toList.length - "-data.json".length))) '-').map
      capitalizeWord)
    ++ " Specification"

/-- Entry produced for each discovered data file: filename, derived title and
sequential section number. -/
structure LoadedEntry where
  filename : String
  title : String
  sectionNumber : String
deriving DecidableEq, Repr

/-- Lexicographic comparison of character lists by code point, the order used
by the JavaScript default `Array.prototype.sort` on these ASCII filenames. -/
def charListLe : List Char → List Char → Bool
  | [], _ => true
  | _ :: _, [] => false
  | c :: cs, d :: ds =>
    if c.toNat < d.toNat then true
    else if d.toNat < c.toNat then false
    else charListLe cs ds

/-- Lexicographic filename comparison used when sorting discovered files. -/
def fileLe (a b : String) : Bool :=
  charListLe a.toList b.toList

/-- Auto-discovery loading (`document-generator.ts`, `loadDataFiles`, mode 1):
keep exactly the files ending in `-data.json`, sort them lexicographically,
and number the derived titles sequentially `2.2.1`, `2.2.2`, … -/
def loadDataFiles (files : List String) : List LoadedEntry :=
  let sorted :=
    List.insertionSort (fun a b => fileLe a b = true)
      (files.filter (fun f => endsWithS f "-data.json"))
  sorted.enum.map (fun p => ⟨p.2, deriveTitle p.2, "2.2." ++ toString (p.1 + 1)⟩)

/-- Resolved per-resource names (`config.ts`, result of `getResourceNames`). -/
structure ResourceNames where
  resourceGroupName : String
  webAppName : String
  legacyPlanName : String
  sqlServerName : String
  sqlDatabaseName : String
  redisCacheName : String
  storageAccountName : String
deriving DecidableEq, Repr

/-- Optional per-resource override inputs (the `process.env` override
variables read by `getResourceNames`). -/
structure ResourceOverrides where
  resourceGroupOverride : Option String
  webAppOverride : Option String
  planOverride : Option String
  sqlServerOverride : Option String
  sqlDatabaseOverride : Option String
  redisCacheOverride : Option String
  storageAccountOverride : Option String
deriving DecidableEq, Repr

/-- Override set with every input absent. -/
def noOverrides : ResourceOverrides :=
  ⟨none, none, none, none, none, none, none⟩

/-- Resource-name resolution (`config.ts`, `getResourceNames`): defaults
derived from the base name, each individually replaced through the JavaScript
`override || default` pattern. -/
def getResourceNames (base : String) (env : ResourceOverrides) : ResourceNames :=
  let storageDefault := toLowerS (String.mk (base.toList.filter (fun c => c ≠ '-')))
  { resourceGroupName := jsOr env.resourceGroupOverride base
    webAppName := jsOr env.webAppOverride (base ++ "-legacy")
    legacyPlanName := jsOr env.planOverride (base ++ "-legacy")
    sqlServerName := jsOr env.sqlServerOverride base
    sqlDatabaseName := jsOr env.sqlDatabaseOverride (base ++ "-legacy")
    redisCacheName := jsOr env.redisCacheOverride base
    storageAccountName := jsOr env.storageAccountOverride storageDefault }

/-- Storage-account SKU as returned by the management API. -/
structure StorageSku where
  name : Option String
  tier : Option String
deriving DecidableEq, Repr

/-- Storage-account encryption properties (only the key source matters). -/
structure StorageEncryption where
  keySource : Option String
deriving DecidableEq, Repr

/-- Storage-account properties used by the storage fetcher. -/
structure StorageAccount where
  kind : Option String
  sku : Option StorageSku
  accessTier : Option String
  primaryLocation : Option String
  secondaryLocation : Option String
  encryption : Option StorageEncryption
  enableHttpsTrafficOnly : Option Bool
  allowBlobPublicAccess : Option Bool
  minimumTlsVersion : Option String
  largeFileSharesState : Option String
deriving DecidableEq, Repr

/-- Blob container (only the public-access level matters). -/
structure BlobContainer where
  publicAccess : Option String
deriving DecidableEq, Repr

/-- One diagnostic setting as returned by the monitor API. -/
structure DiagnosticSetting where
  workspaceId : Option String
  storageAccountId : Option String
  eventHubAuthorizationRuleId : Option String
  eventHubName : Option String
deriving DecidableEq, Repr

/-- Destination string derived from the first diagnostic setting
(`storage.ts`): workspace id, then storage account id, then event hub, in
that priority order; `'-'` when none is present. -/
def destinationDetails (s : DiagnosticSetting) : String :=
  match jsStr s.workspaceId with
  | some w => "Log analytics workspace: " ++ lastSegment w
  | none =>
    match jsStr s.storageAccountId with
    | some a => "Storage Account: " ++ lastSegment a
    | none =>
      match jsStr s.eventHubAuthorizationRuleId with
      | some _ => "Event Hub: " ++ jsOr s.eventHubName "Default"
      | none => "-"

/-- Injected results of the Azure calls issued by the storage fetcher, in
source order: the primary `getProperties` call followed by the four optional
calls, each either a value or a thrown error. -/
structure StorageFetchInputs where
  account : Except String StorageAccount
  blobServiceProperties : Except String Unit
  containers : Except String (List BlobContainer)
  defenderPricing : Except String SecurityPricing
  diagnosticSettings : Except String (List DiagnosticSetting)

/-- A `writeFileSync` performed by a fetcher: target file and record list. -/
structure FsWrite where
  path : String
  content : SpecificationData
deriving DecidableEq, Repr

/-- Effect embedding of `fetchAndSaveStorageDetails` (`storage.ts`): when the
primary call fails the error is re-thrown and nothing is written; otherwise
each failed optional call is replaced by its default, the sixteen records are
assembled in source order and written to `storage-data.json`. -/
def fetchAndSaveStorageDetails (i : StorageFetchInputs) :
    List FsWrite × Except String Unit :=
  match i.account with
  | .error e => ([], .error e)
  | .ok account =>
    let containers : List BlobContainer :=
      match i.containers with
      | .ok cs => cs
      | .error _ => []
    let defenderStatus := storageDefenderStatus i.defenderPricing
    let diag : String × String :=
      match i.diagnosticSettings with
      | .ok settings =>
        match settings with
        | [] => ("Disabled", "-")
        | firstSetting :: _ => ("Enable all logs", destinationDetails firstSetting)
      | .error _ => ("Disabled", "-")
    let replicationDetails :=
      getReplicationDetails (account.sku.bind StorageSku.name) account.secondaryLocation
    let slaValue := getStorageSLA (account.sku.bind StorageSku.name) account.accessTier
    let encryptionType := getEncryptionType (account.encryption.bind StorageEncryption.keySource)
    let geographicalLocation :=
      "Primary – " ++ jsOr account.primaryLocation "-" ++
        (match jsStr account.secondaryLocation with
         | some sec => "\nSecondary – " ++ sec
         | none => "")
    let containerAccessLevel :=
      if containers.length > 0 &&
          containers.any (fun c =>
            c.publicAccess = some "Blob" || c.publicAccess = some "Container") then
        "Public (Blob or Container level)"
      else "Private"
    let data : SpecificationData := [
      ⟨"General", "Account Kind", jsOr account.kind "-"⟩,
      ⟨"General", "Performance", jsOr (account.sku.bind StorageSku.tier) "-"⟩,
      ⟨"General", "Replication", jsOr (account.sku.bind StorageSku.name) "-"⟩,
      ⟨"General", "Access Tier", jsOr account.accessTier "-"⟩,
      ⟨"General", "Local replica", replicationDetails.1⟩,
      ⟨"General", "SLA", slaValue⟩,
      ⟨"General", "Geographical Location", geographicalLocation⟩,
      ⟨"Container", "Change access level", containerAccessLevel⟩,
      ⟨"Security", "Encryption type", encryptionType⟩,
      ⟨"Security", "Secure transfer required",
        if account.enableHttpsTrafficOnly = some true then "Enabled" else "Disabled"⟩,
      ⟨"Security", "Allow Blob public access",
        if account.allowBlobPublicAccess = some true then "Enabled" else "Disabled"⟩,
      ⟨"Security", "Microsoft Defender for Cloud", defenderStatus⟩,
      ⟨"Configuration", "Minimum TLS version", jsOr account.minimumTlsVersion "-"⟩,
      ⟨"Configuration", "Large file shares", jsOr account.largeFileSharesState "Disabled"⟩,
      ⟨"Monitoring", "Diagnostic settings", diag.1⟩,
      ⟨"Monitoring", "Destination details", diag.2⟩]
    ([⟨"storage-data.json", data⟩], .ok ())

/-! Helper lemmas about the embedded operations. -/

/-- Totality of the lexicographic filename order. -/
theorem charListLe_total : ∀ a b : List Char, charListLe a b = true ∨ charListLe b a = true := by
  intro a
  induction a with
  | nil => intro b; left; rfl
  | cons c cs ih =>
    intro b
    cases b with
    | nil => right; rfl
    | cons d ds =>
      by_cases h1 : c.toNat < d.toNat
      · left; simp [charListLe, h1]
      · by_cases h2 : d.toNat < c.toNat
        · right; simp [charListLe, h2]
        · rcases ih ds with h | h
          · left; simp [charListLe, h1, h2, h]
          · right; simp [charListLe, h1, h2, h]

/-- Transitivity of the lexicographic filename order. -/
theorem charListLe_trans :
    ∀ a b c : List Char, charListLe a b = true → charListLe b c = true →
      charListLe a c = true := by
  intro a
  induction a with
  | nil => intro b c _ _; rfl
  | cons x xs ih =>
    intro b c hab hbc
    cases b with
    | nil => exact absurd hab (by simp [charListLe])
    | cons y ys =>
      cases c with
      | nil => exact absurd hbc (by simp [charListLe])
      | cons z zs =>
        simp only [charListLe] at hab hbc ⊢
        by_cases hxy : x.toNat < y.toNat
        · by_cases hyz : y.toNat < z.toNat
          · simp [show x.toNat < z.toNat by omega]
          · by_cases hzy : z.toNat < y.toNat
            · rw [if_neg (by omega), if_pos hzy] at hbc
              exact absurd hbc (by simp)
            · simp [show x.toNat < z.toNat by omega]
        · by_cases hyx : y.toNat < x.toNat
          · rw [if_neg hxy, if_pos hyx] at hab
            exact absurd hab (by simp)
          · by_cases hyz : y.toNat < z.toNat
            · simp [show x.toNat < z.toNat by omega]
            · by_cases hzy : z.toNat < y.toNat
              · rw [if_neg hyz, if_pos hzy] at hbc
                exact absurd hbc (by simp)
              · rw [if_neg hxy, if_neg hyx] at hab
                rw [if_neg hyz, if_neg hzy] at hbc
                rw [if_neg (by omega), if_neg (by omega)]
                exact ih ys zs hab hbc

/-- Antisymmetry of the lexicographic filename order. -/
theorem charListLe_antisymm :
    ∀ a b : List Char, charListLe a b = true → charListLe b a = true → a = b := by
  intro a
  induction a with
  | nil =>
    intro b _ hba
    cases b with
    | nil => rfl
    | cons d ds => exact absurd hba (by simp [charListLe])
  | cons c cs ih =>
    intro b hab hba
    cases b with
    | nil => exact absurd hab (by simp [charListLe])
    | cons d ds =>
      simp only [charListLe] at hab hba
      by_cases h1 : c.toNat < d.toNat
      · rw [if_neg (by omega), if_pos h1] at hba
        exact absurd hba (by simp)
      · by_cases h2 : d.toNat < c.toNat
        · rw [if_neg h1, if_pos h2] at hab
          exact absurd hab (by simp)
        · rw [if_neg h1, if_neg h2] at hab
          rw [if_neg h2, if_neg h1] at hba
          have hn : c.toNat = d.toNat := by omega
          have hcd : c = d := by
            apply Char.ext
            apply UInt32.ext
            exact hn
          rw [hcd, ih ds hab hba]

instance : IsTotal String (fun a b => fileLe a b = true) where
  total a b := charListLe_total a.toList b.toList

instance : IsTrans String (fun a b => fileLe a b = true) where
  trans a b c := charListLe_trans a.toList b.toList c.toList

instance : IsAntisymm String (fun a b => fileLe a b = true) where
  antisymm a b hab hba := by
    have h := charListLe_antisymm a.toList b.toList hab hba
    cases a; cases b
    simpa [String.toList] using congrArg String.mk h

/-- Substring containment transfers along infix containment of the pattern. -/
theorem containsSub_mono {n p q : String} (hqp : q.toList <:+: p.toList)
    (h : containsSub n p = true) : containsSub n q = true :=
  decide_eq_true (hqp.trans (of_decide_eq_true h))

/-- A string containing a suffix pattern contains every infix of the pattern. -/
theorem containsSub_of_endsWithS {n p q : String} (hqp : q.toList <:+: p.toList)
    (h : endsWithS n p = true) : containsSub n q = true :=
  decide_eq_true (hqp.trans (of_decide_eq_true h).isInfix)

/-- Effect of one `addToGroups` step on the lookup of a section. -/
theorem lookupGroup_addToGroups (acc : List (String × SpecificationData))
    (r : SpecRecord) (s : String) :
    lookupGroup s (addToGroups acc r) =
      lookupGroup s acc ++ (if r.sectionName = s then [r] else []) := by
  induction acc with
  | nil =>
    by_cases h : r.sectionName = s <;> simp [addToGroups, lookupGroup, h]
  | cons hd tl ih =>
    obtain ⟨k, items⟩ := hd
    simp only [addToGroups]
    by_cases hk : k = r.sectionName
    · rw [if_pos hk]
      simp only [lookupGroup]
      by_cases hs : k = s
      · rw [if_pos hs, if_pos hs, if_pos (hk.symm.trans hs)]
      · have hrs : ¬ r.sectionName = s := fun h => hs (hk.trans h)
        rw [if_neg hs, if_neg hs, if_neg hrs, List.append_nil]
    · rw [if_neg hk]
      simp only [lookupGroup]
      by_cases hs : k = s
      · have hrs : ¬ r.sectionName = s := fun h => hk (hs.trans h.symm)
        rw [if_pos hs, if_pos hs, if_neg hrs, List.append_nil]
      · rw [if_neg hs, if_neg hs, ih]

/-- Lookup after folding `addToGroups` over a record list. -/
theorem lookupGroup_foldl (data : SpecificationData)
    (acc : List (String × SpecificationData)) (s : String) :
    lookupGroup s (data.foldl addToGroups acc) =
      lookupGroup s acc ++ data.filter (fun r => r.sectionName = s) := by
  induction data generalizing acc with
  | nil => simp
  | cons r t ih =>
    rw [List.foldl_cons, ih, lookupGroup_addToGroups, List.append_assoc, List.filter_cons]
    by_cases h : r.sectionName = s <;> simp [h]

/-- Effect of one `addToGroups` step on the list of group keys. -/
theorem keys_addToGroups (acc : List (String × SpecificationData)) (r : SpecRecord) :
    (addToGroups acc r).map Prod.fst =
      if r.sectionName ∈ acc.map Prod.fst then acc.map Prod.fst
      else acc.map Prod.fst ++ [r.sectionName] := by
  induction acc with
  | nil => simp [addToGroups]
  | cons hd tl ih =>
    obtain ⟨k, items⟩ := hd
    simp only [addToGroups]
    by_cases hk : k = r.sectionName
    · rw [if_pos hk]
      simp only [List.map_cons]
      rw [if_pos (by rw [← hk]; exact List.mem_cons_self k (tl.map Prod.fst))]
    · rw [if_neg hk]
      simp only [List.map_cons, ih]
      by_cases hmem : r.sectionName ∈ tl.map Prod.fst
      · rw [if_pos hmem, if_pos (List.mem_cons_of_mem k hmem)]
      · have hnot : ¬ r.sectionName ∈ k :: tl.map Prod.fst := by
          intro h
          rcases List.mem_cons.mp h with h | h
          · exact hk h.symm
          · exact hmem h
        rw [if_neg hmem, if_neg hnot]
        simp

/-- Group keys after folding `addToGroups` over a record list. -/
theorem keys_foldl (data : SpecificationData) (acc : List (String × SpecificationData)) :
    (data.foldl addToGroups acc).map Prod.fst =
      data.foldl (fun ks r => if r.sectionName ∈ ks then ks else ks ++ [r.sectionName])
        (acc.map Prod.fst) := by
  induction data generalizing acc with
  | nil => rfl
  | cons r t ih => rw [List.foldl_cons, List.foldl_cons, ih, keys_addToGroups]

/-- Elements of the first-occurrence deduplication all come from the list. -/
theorem mem_of_mem_firstDedup (l : List String) (x : String) (h : x ∈ firstDedup l) :
    x ∈ l := by
  have key : ∀ (l : List String) (acc : List String), x ∈ l.foldl
      (fun acc s => if s ∈ acc then acc else acc ++ [s]) acc → x ∈ acc ∨ x ∈ l := by
    intro l
    induction l with
    | nil => intro acc h; exact Or.inl h
    | cons a t ih =>
      intro acc h
      rw [List.foldl_cons] at h
      rcases ih _ h with hacc | ht
      · by_cases hmem : a ∈ acc
        · rw [if_pos hmem] at hacc
          exact Or.inl hacc
        · rw [if_neg hmem] at hacc
          rcases List.mem_append.mp hacc with h1 | h1
          · exact Or.inl h1
          · exact Or.inr (List.mem_cons.mpr (Or.inl (List.mem_singleton.mp h1)))
      · exact Or.inr (List.mem_cons_of_mem a ht)
  rcases key l [] h with hacc | hl
  · exact absurd hacc (List.not_mem_nil x)
  · exact hl

/-- When no key of an association list is an ECMAScript array index,
`Object.entries` enumeration is plain insertion order. -/
theorem objectEntries_of_no_index (l : List (String × SpecificationData))
    (h : ∀ p ∈ l, isArrayIndexKey p.1 = false) : objectEntries l = l := by
  unfold objectEntries
  have h1 : l.filter (fun p => isArrayIndexKey p.1) = [] := by
    apply List.filter_eq_nil_iff.mpr
    intro p hp
    simp [h p hp]
  have h2 : l.filter (fun p => !isArrayIndexKey p.1) = l := by
    apply List.filter_eq_self.mpr
    intro p hp
    simp [h p hp]
  rw [h1, h2]
  rfl

/-! Claim theorems. -/

/-- Concrete record list with sections `[A, A, B, A]`, the instance named by
the grouping claim. -/
def sectionRunExample : SpecificationData :=
  [⟨"A", "t1", "1"⟩, ⟨"A", "t2", "2"⟩, ⟨"B", "t3", "1"⟩, ⟨"A", "t4", "3"⟩]

/-- Concrete record list whose second section name is the array-index key
`"1"`, exercising the numeric-first enumeration of `Object.entries`. -/
def numericSectionExample : SpecificationData :=
  [⟨"B", "t1", "1"⟩, ⟨"1", "t2", "2"⟩]

/-- C1 counterexample: on records with sections `[A, A, B, A]` the renderer
produces two merged row groups, `A` spanning 3 rows and `B` spanning 1 row —
not the three groups `A(2), B(1), A(1)` the claim requires, because
`groupBySection` merges non-contiguous occurrences of a section name. -/
theorem C1_counterexample :
    tableRowGroups sectionRunExample ≠ [("A", 2), ("B", 1), ("A", 1)] ∧
    (groupBySection sectionRunExample).length = 2 := by
  exact ⟨by decide, by decide⟩

/-- C1 (amended): the renderer's table grouping is a stable grouping by
section name, not by contiguous runs: the group of a section name collects
every stored record with that section in stored order, and the groups are
rendered in JavaScript `Object.entries` order — array-index-like section
names first in ascending numeric order, then the remaining names in
first-occurrence order.  When no section name is array-index-like (as for all
section names this system's fetchers emit) the rendered order is exactly
first-occurrence order; records with sections `[A, A, B, A]` yield the two
groups `A` (3 rows) and `B` (1 row), and sections `[B, 1]` render group `1`
before group `B`. -/
theorem C1_grouping (data : SpecificationData) (s : String) :
    lookupGroup s (groupBySection data) = data.filter (fun r => r.sectionName = s) ∧
    ((data.map SpecRecord.sectionName).all (fun n => !isArrayIndexKey n) = true →
      (tableRowGroups data).map Prod.fst = firstDedup (data.map SpecRecord.sectionName)) ∧
    tableRowGroups sectionRunExample = [("A", 3), ("B", 1)] ∧
    tableRowGroups numericSectionExample = [("1", 1), ("B", 1)] := by
  refine ⟨?_, ?_, by decide, by decide⟩
  · rw [groupBySection, lookupGroup_foldl]
    rfl
  · intro hno
    have hkeys : (groupBySection data).map Prod.fst =
        firstDedup (data.map SpecRecord.sectionName) := by
      rw [groupBySection, keys_foldl, firstDedup, List.foldl_map]
      rfl
    have hmem : ∀ p ∈ groupBySection data, isArrayIndexKey p.1 = false := by
      intro p hp
      have h1 : p.1 ∈ (groupBySection data).map Prod.fst := List.mem_map_of_mem _ hp
      rw [hkeys] at h1
      have h2 : p.1 ∈ data.map SpecRecord.sectionName := mem_of_mem_firstDedup _ _ h1
      have h3 := List.all_eq_true.mp hno _ h2
      simpa using h3
    unfold tableRowGroups
    rw [objectEntries_of_no_index _ hmem, List.map_map, ← hkeys]
    rfl

/-- C1 witness: the amended theorem's first-occurrence clause applied to the
concrete `[A, A, B, A]` record list, whose section names contain no
array-index key. -/
theorem C1_witness :
    (tableRowGroups sectionRunExample).map Prod.fst =
      firstDedup (sectionRunExample.map SpecRecord.sectionName) :=
  (C1_grouping sectionRunExample "A").2.1 (by decide)

/-- C2 counterexample: on `"batchline-orbia-prod-legacy"` the environment
detector returns the string `"prod"`, not `"production"` as the claim
states. -/
theorem C2_counterexample :
    detectEnvironment "batchline-orbia-prod-legacy" ≠ "production" := by
  decide

/-- C2 (amended): `detectEnvironment` classifies by case-insensitive substring
matching with the `prod` check first (so a name containing both substrings
yields `"prod"`), returning `"prod"`, `"test"` or `"unknown"`; concretely the
three named inputs map to `"test"`, `"prod"` and `"unknown"`. -/
theorem C2_detectEnvironment (name : String) :
    detectEnvironment name =
      (if containsSub (toLowerS name) "prod" then "prod"
       else if containsSub (toLowerS name) "test" then "test"
       else "unknown") ∧
    detectEnvironment "batchline-orbia-test" = "test" ∧
    detectEnvironment "batchline-orbia-prod-legacy" = "prod" ∧
    detectEnvironment "batchline-orbia" = "unknown" := by
  refine ⟨?_, ?_⟩
  case refine_2 => decide
  unfold detectEnvironment
  by_cases hp : containsSub (toLowerS name) "prod" = true
  · simp [hp]
  · have hp' : containsSub (toLowerS name) "prod" = false := Bool.eq_false_iff.mpr hp
    have h1 : containsSub (toLowerS name) "-prod-" = false := by
      cases hcc : containsSub (toLowerS name) "-prod-"
      · rfl
      · exact absurd (containsSub_mono (by decide) hcc) hp
    have h2 : endsWithS (toLowerS name) "-prod" = false := by
      cases hcc : endsWithS (toLowerS name) "-prod"
      · rfl
      · exact absurd (containsSub_of_endsWithS (by decide) hcc) hp
    by_cases ht : containsSub (toLowerS name) "test" = true
    · simp [hp', h1, h2, ht]
    · have ht' : containsSub (toLowerS name) "test" = false := Bool.eq_false_iff.mpr ht
      have h3 : containsSub (toLowerS name) "-test-" = false := by
        cases hcc : containsSub (toLowerS name) "-test-"
        · rfl
        · exact absurd (containsSub_mono (by decide) hcc) ht
      have h4 : endsWithS (toLowerS name) "-test" = false := by
        cases hcc : endsWithS (toLowerS name) "-test"
        · rfl
        · exact absurd (containsSub_of_endsWithS (by decide) hcc) ht
      simp [hp', h1, h2, ht', h3, h4]

/-- C4 counterexample: on the unrecognised SKU `Premium_LRS` (with no access
tier) the storage SLA derivation returns `'99.5% - 99.9%'`, not the `'-'` the
claim requires for an unknown SKU. -/
theorem C4_counterexample :
    getStorageSLA (some "Premium_LRS") none ≠ "-" := by
  decide

/-- C4 (amended): the storage SLA derivation returns `'-'` exactly when the
SKU is missing (or empty); otherwise tier `Hot` yields `'99.9%'`, tier `Cool`
yields `'99.0%'`, and every remaining case — whether or not the SKU contains
`Standard` — yields `'99.5% - 99.9%'`. -/
theorem C4_getStorageSLA (s : String) (tier : Option String) :
    getStorageSLA none tier = "-" ∧
    getStorageSLA (some "") tier = "-" ∧
    (s ≠ "" → getStorageSLA (some s) (some "Hot") = "99.9%") ∧
    (s ≠ "" → getStorageSLA (some s) (some "Cool") = "99.0%") ∧
    (s ≠ "" → tier ≠ some "Hot" → tier ≠ some "Cool" →
      getStorageSLA (some s) tier = "99.5% - 99.9%") := by
  have hne : s ≠ "" → s.isEmpty = false := by
    intro h
    cases hc : s.isEmpty
    · rfl
    · exact absurd ((String.isEmpty_iff s).mp hc) h
  refine ⟨rfl, rfl, ?_, ?_, ?_⟩
  · intro h
    simp [getStorageSLA, hne h]
  · intro h
    simp [getStorageSLA, hne h]
  · intro h hH hC
    simp [getStorageSLA, hne h, hH, hC]

/-- C4 witness: the amended theorem applied to SKU `Standard_LRS` with no
access tier. -/
theorem C4_witness : getStorageSLA (some "Standard_LRS") none = "99.5% - 99.9%" :=
  (C4_getStorageSLA "Standard_LRS" none).2.2.2.2 (by decide) (by decide) (by decide)

/-- C5 counterexample: the storage fetcher maps Defender pricing tier
`Standard` to `'Enable'`, not to the `'Enabled'` the claim states; and the
database fetcher maps tier `Free` to `'Enabled'`, although the claim reserves
the `Free` rule for the web-server fetcher. -/
theorem C5_counterexample :
    storageDefenderStatus (.ok ⟨some "Standard"⟩) ≠ "Enabled" ∧
    databaseDefenderStatus (.ok ⟨some "Free"⟩) = "Enabled" := by
  exact ⟨by decide, by decide⟩

/-- C5 (amended): the storage fetcher maps tier `Standard` to `'Enable'` and
every other tier to `'Disabled'`; the web-server and database fetchers both
map `Standard` and `Free` to `'Enabled'` and every other tier to `'Disabled'`;
and all three default to `'Disabled'` when the pricing call fails. -/
theorem C5_defenderStatus (t : Option String) (e : String) :
    storageDefenderStatus (.error e) = "Disabled" ∧
    webServerDefenderStatus (.error e) = "Disabled" ∧
    databaseDefenderStatus (.error e) = "Disabled" ∧
    storageDefenderStatus (.ok ⟨some "Standard"⟩) = "Enable" ∧
    (t ≠ some "Standard" → storageDefenderStatus (.ok ⟨t⟩) = "Disabled") ∧
    webServerDefenderStatus (.ok ⟨some "Standard"⟩) = "Enabled" ∧
    webServerDefenderStatus (.ok ⟨some "Free"⟩) = "Enabled" ∧
    (t ≠ some "Standard" → t ≠ some "Free" →
      webServerDefenderStatus (.ok ⟨t⟩) = "Disabled") ∧
    databaseDefenderStatus (.ok ⟨some "Standard"⟩) = "Enabled" ∧
    databaseDefenderStatus (.ok ⟨some "Free"⟩) = "Enabled" ∧
    (t ≠ some "Standard" → t ≠ some "Free" →
      databaseDefenderStatus (.ok ⟨t⟩) = "Disabled") := by
  refine ⟨rfl, rfl, rfl, by decide, ?_, by decide, by decide, ?_, by decide, by decide, ?_⟩
  · intro h
    simp [storageDefenderStatus, h]
  · intro h1 h2
    simp [webServerDefenderStatus, h1, h2]
  · intro h1 h2
    simp [databaseDefenderStatus, h1, h2]

/-- C5 witness: the amended theorem applied to the unrecognised tier
`Premium` for the storage fetcher. -/
theorem C5_witness : storageDefenderStatus (.ok ⟨some "Premium"⟩) = "Disabled" :=
  (C5_defenderStatus (some "Premium") "e").2.2.2.2.1 (by decide)

/-- C9 counterexample: a storage-account override that is present but empty is
not used verbatim — the resolution falls back to the derived default because
the source uses the falsy `||` pattern. -/
theorem C9_counterexample :
    (getResourceNames "batchline-orbia-test"
      { noOverrides with storageAccountOverride := some "" }).storageAccountName ≠ "" := by
  decide

/-- C9 (amended): with no overrides the resolution yields the documented
defaults (resource group, SQL server and cache names equal the base; web app,
plan and SQL database names append `-legacy`; the storage account name is the
base with hyphens removed and lowercased, so base `batchline-orbia-test`
yields `batchlineorbiatest`); and an override that is present and non-empty is
used verbatim, while an empty-string override falls back to the default. -/
theorem C9_getResourceNames (base : String) (ov : ResourceOverrides) (s : String) :
    getResourceNames base noOverrides =
      ⟨base, base ++ "-legacy", base ++ "-legacy", base, base ++ "-legacy", base,
        toLowerS (String.mk (base.toList.filter (fun c => c ≠ '-')))⟩ ∧
    (getResourceNames "batchline-orbia-test" noOverrides).storageAccountName =
      "batchlineorbiatest" ∧
    (s ≠ "" → ov.resourceGroupOverride = some s →
      (getResourceNames base ov).resourceGroupName = s) ∧
    (s ≠ "" → ov.webAppOverride = some s →
      (getResourceNames base ov).webAppName = s) ∧
    (s ≠ "" → ov.planOverride = some s →
      (getResourceNames base ov).legacyPlanName = s) ∧
    (s ≠ "" → ov.sqlServerOverride = some s →
      (getResourceNames base ov).sqlServerName = s) ∧
    (s ≠ "" → ov.sqlDatabaseOverride = some s →
      (getResourceNames base ov).sqlDatabaseName = s) ∧
    (s ≠ "" → ov.redisCacheOverride = some s →
      (getResourceNames base ov).redisCacheName = s) ∧
    (s ≠ "" → ov.storageAccountOverride = some s →
      (getResourceNames base ov).storageAccountName = s) := by
  have hjs : ∀ d : String, s ≠ "" → jsOr (some s) d = s := by
    intro d h
    have he : s.isEmpty = false := by
      cases hc : s.isEmpty
      · rfl
      · exact absurd ((String.isEmpty_iff s).mp hc) h
    simp [jsOr, he]
  refine ⟨rfl, by decide, ?_, ?_, ?_, ?_, ?_, ?_, ?_⟩ <;>
    · intro h hov
      simp [getResourceNames, hov, hjs _ h]

/-- C9 witness: the amended theorem applied to a non-empty web-app override. -/
theorem C9_witness :
    (getResourceNames "batchline-orbia-test"
      { noOverrides with webAppOverride := some "legacy-app" }).webAppName = "legacy-app" :=
  (C9_getResourceNames "batchline-orbia-test"
    { noOverrides with webAppOverride := some "legacy-app" } "legacy-app").2.2.2.1
    (by decide) rfl

/-- C10: the alert filter admits every alert when the target environment is
`unknown` or the alert name is empty; with target `test` it admits names
containing `test` and also names containing neither `prod` nor `production`;
and with target `prod` (for a non-empty name) it admits exactly the names
containing `prod` but not `test`. -/
theorem C10_isAlertForEnvironment (name t : String) :
    isAlertForEnvironment name "unknown" = true ∧
    isAlertForEnvironment "" t = true ∧
    (containsSub (toLowerS name) "test" = true → isAlertForEnvironment name "test" = true) ∧
    (containsSub (toLowerS name) "prod" = false → containsSub (toLowerS name) "production" = false →
      isAlertForEnvironment name "test" = true) ∧
    (name ≠ "" → isAlertForEnvironment name "prod" =
      (containsSub (toLowerS name) "prod" && !containsSub (toLowerS name) "test")) := by
  have hempty : ("" : String).isEmpty = true := by decide
  have huu : (("unknown" : String) = "unknown") := rfl
  have htl : toLowerS "test" = "test" := by decide
  have hpl : toLowerS "prod" = "prod" := by decide
  have htne : toLowerS "test" ≠ "prod" := by decide
  have htu : ("test" : String) ≠ "unknown" := by decide
  have hpu : ("prod" : String) ≠ "unknown" := by decide
  refine ⟨?_, ?_, ?_, ?_, ?_⟩
  · simp [isAlertForEnvironment]
  · simp [isAlertForEnvironment, hempty]
  · intro h
    cases hemp : name.isEmpty
    · simp [isAlertForEnvironment, hemp, htl, htne, htu, h]
    · simp [isAlertForEnvironment, hemp]
  · intro h1 h2
    cases hemp : name.isEmpty
    · simp [isAlertForEnvironment, hemp, htl, htne, htu, h1, h2]
    · simp [isAlertForEnvironment, hemp]
  · intro h
    have hemp : name.isEmpty = false := by
      cases hc : name.isEmpty
      · rfl
      · exact absurd ((String.isEmpty_iff name).mp hc) h
    simp [isAlertForEnvironment, hemp, hpl, hpu]

/-- C10 witness: the filter evaluated through the theorem at an alert named
`orbia-prod-cpu` with target environment `prod`. -/
theorem C10_witness : isAlertForEnvironment "orbia-prod-cpu" "prod" = true := by
  have h := (C10_isAlertForEnvironment "orbia-prod-cpu" "prod").2.2.2.2 (by decide)
  rw [h]
  decide

/-- C3 counterexample: for the triple (empty name, family `C`, capacity 0) —
inputs present but with an empty name string — the lookup returns `('-','-')`
rather than the constructed label `' C0'` the claim's fallback clause
requires, because the source treats the falsy empty string like a missing
input. -/
theorem C3_counterexample :
    getSkuDetails (some "") (some "C") (some 0) = ("-", "-") ∧
    getSkuDetails (some "") (some "C") (some 0) ≠ (" C0", "-") := by
  exact ⟨by decide, by decide⟩

/-- C3 (amended): the Redis SKU lookup returns the exact documented memory and
connection strings on every known Basic/Standard (family `C`, capacities 0-6)
and Premium (family `P`, capacities 1-5) triple; it returns `('-','-')` when
any input is missing or an input string is empty; and on every other
combination it returns the constructed label `"{name} {family}{capacity}"`
with connections `'-'`.  Being a total function, it never throws. -/
theorem C3_getSkuDetails (name family : String) (capacity : Nat)
    (hn : name ≠ "") (hf : family ≠ "") (hk : knownRedisSku name family capacity = false) :
    getSkuDetails (some name) (some family) (some capacity) =
      (name ++ " " ++ family ++ toString capacity, "-") ∧
    (∀ (f : Option String) (c : Option Nat), getSkuDetails none f c = ("-", "-")) ∧
    (∀ (n : Option String) (c : Option Nat), getSkuDetails n none c = ("-", "-")) ∧
    (∀ n f : Option String, getSkuDetails n f none = ("-", "-")) ∧
    getSkuDetails (some "Basic") (some "C") (some 0) = ("250 MB", "Up to 256") ∧
    getSkuDetails (some "Basic") (some "C") (some 1) = ("1 GB", "Up to 1,000") ∧
    getSkuDetails (some "Basic") (some "C") (some 2) = ("2.5 GB", "Up to 2,000") ∧
    getSkuDetails (some "Basic") (some "C") (some 3) = ("6 GB", "Up to 5,000") ∧
    getSkuDetails (some "Basic") (some "C") (some 4) = ("13 GB", "Up to 10,000") ∧
    getSkuDetails (some "Basic") (some "C") (some 5) = ("26 GB", "Up to 15,000") ∧
    getSkuDetails (some "Basic") (some "C") (some 6) = ("53 GB", "Up to 20,000") ∧
    getSkuDetails (some "Standard") (some "C") (some 0) = ("250 MB", "Up to 256") ∧
    getSkuDetails (some "Standard") (some "C") (some 1) = ("1 GB", "Up to 1,000") ∧
    getSkuDetails (some "Standard") (some "C") (some 2) = ("2.5 GB", "Up to 2,000") ∧
    getSkuDetails (some "Standard") (some "C") (some 3) = ("6 GB", "Up to 5,000") ∧
    getSkuDetails (some "Standard") (some "C") (some 4) = ("13 GB", "Up to 10,000") ∧
    getSkuDetails (some "Standard") (some "C") (some 5) = ("26 GB", "Up to 15,000") ∧
    getSkuDetails (some "Standard") (some "C") (some 6) = ("53 GB", "Up to 20,000") ∧
    getSkuDetails (some "Premium") (some "P") (some 1) = ("6 GB", "Up to 7,500") ∧
    getSkuDetails (some "Premium") (some "P") (some 2) = ("13 GB", "Up to 15,000") ∧
    getSkuDetails (some "Premium") (some "P") (some 3) = ("26 GB", "Up to 30,000") ∧
    getSkuDetails (some "Premium") (some "P") (some 4) = ("53 GB", "Up to 40,000") ∧
    getSkuDetails (some "Premium") (some "P") (some 5) = ("120 GB", "Up to 40,000") := by
  have hne : name.isEmpty = false := by
    cases hc : name.isEmpty
    · rfl
    · exact absurd ((String.isEmpty_iff name).mp hc) hn
  have hfe : family.isEmpty = false := by
    cases hc : family.isEmpty
    · rfl
    · exact absurd ((String.isEmpty_iff family).mp hc) hf
  refine ⟨?_, ?_, ?_, ?_, ?_⟩
  · by_cases hb : family = "C" ∧ name = "Basic"
    · obtain ⟨hf1, hn1⟩ := hb
      subst hf1
      subst hn1
      have hcap : 7 ≤ capacity := by
        simp [knownRedisSku] at hk
        omega
      obtain ⟨m, rfl⟩ : ∃ m, capacity = m + 7 := ⟨capacity - 7, by omega⟩
      rfl
    · by_cases hs : family = "C" ∧ name = "Standard"
      · obtain ⟨hf1, hn1⟩ := hs
        subst hf1
        subst hn1
        have hcap : 7 ≤ capacity := by
          simp [knownRedisSku] at hk
          omega
        obtain ⟨m, rfl⟩ : ∃ m, capacity = m + 7 := ⟨capacity - 7, by omega⟩
        rfl
      · by_cases hp : family = "P" ∧ name = "Premium"
        · obtain ⟨hf1, hn1⟩ := hp
          subst hf1
          subst hn1
          have hcap : capacity = 0 ∨ 6 ≤ capacity := by
            simp [knownRedisSku] at hk
            omega
          rcases hcap with hc0 | hc6
          · subst hc0
            rfl
          · obtain ⟨m, rfl⟩ : ∃ m, capacity = m + 6 := ⟨capacity - 6, by omega⟩
            rfl
        · simp only [getSkuDetails, hne, hfe, Bool.or_self, Bool.false_eq_true, if_false]
          rw [if_neg hb, if_neg hs, if_neg hp]
  · intro f c
    cases f <;> cases c <;> rfl
  · intro n c
    cases n <;> cases c <;> rfl
  · intro n f
    cases n <;> cases f <;> rfl
  · decide

/-- C3 witness: the amended theorem applied to the unknown triple
(`Basic`, `C`, capacity 7). -/
theorem C3_witness :
    getSkuDetails (some "Basic") (some "C") (some 7) =
      ("Basic" ++ " " ++ "C" ++ toString 7, "-") :=
  (C3_getSkuDetails "Basic" "C" 7 (by decide) (by decide) (by decide)).1

/-- C6: when the primary `getProperties` call of the storage fetcher throws,
the fetcher re-throws that very error and performs no file write at all, so
any previously existing output file is untouched. -/
theorem C6_primary_failure (i : StorageFetchInputs) (e : String)
    (h : i.account = .error e) :
    fetchAndSaveStorageDetails i = ([], .error e) := by
  unfold fetchAndSaveStorageDetails
  rw [h]

/-- C6 witness: the theorem applied to a concrete failing primary call. -/
theorem C6_witness :
    fetchAndSaveStorageDetails
      ⟨.error "boom", .ok (), .ok [], .ok ⟨some "Standard"⟩, .ok []⟩ =
      ([], .error "boom") :=
  C6_primary_failure _ "boom" rfl

/-- C7: when the primary call succeeds and every optional call throws, the
storage fetcher still completes successfully and writes the complete
sixteen-record set in the fixed source order, with every optional-derived
value at its documented default: Defender `'Disabled'`, diagnostic settings
`'Disabled'`, destination `'-'`, and the container access level `'Private'`
that follows from the empty container-list default. -/
theorem C7_optional_failures (a : StorageAccount) (e1 e2 e3 e4 : String) :
    fetchAndSaveStorageDetails ⟨.ok a, .error e1, .error e2, .error e3, .error e4⟩ =
      ([⟨"storage-data.json", [
        ⟨"General", "Account Kind", jsOr a.kind "-"⟩,
        ⟨"General", "Performance", jsOr (a.sku.bind StorageSku.tier) "-"⟩,
        ⟨"General", "Replication", jsOr (a.sku.bind StorageSku.name) "-"⟩,
        ⟨"General", "Access Tier", jsOr a.accessTier "-"⟩,
        ⟨"General", "Local replica",
          (getReplicationDetails (a.sku.bind StorageSku.name) a.secondaryLocation).1⟩,
        ⟨"General", "SLA", getStorageSLA (a.sku.bind StorageSku.name) a.accessTier⟩,
        ⟨"General", "Geographical Location",
          "Primary – " ++ jsOr a.primaryLocation "-" ++
            (match jsStr a.secondaryLocation with
             | some sec => "\nSecondary – " ++ sec
             | none => "")⟩,
        ⟨"Container", "Change access level", "Private"⟩,
        ⟨"Security", "Encryption type",
          getEncryptionType (a.encryption.bind StorageEncryption.keySource)⟩,
        ⟨"Security", "Secure transfer required",
          if a.enableHttpsTrafficOnly = some true then "Enabled" else "Disabled"⟩,
        ⟨"Security", "Allow Blob public access",
          if a.allowBlobPublicAccess = some true then "Enabled" else "Disabled"⟩,
        ⟨"Security", "Microsoft Defender for Cloud", "Disabled"⟩,
        ⟨"Configuration", "Minimum TLS version", jsOr a.minimumTlsVersion "-"⟩,
        ⟨"Configuration", "Large file shares", jsOr a.largeFileSharesState "Disabled"⟩,
        ⟨"Monitoring", "Diagnostic settings", "Disabled"⟩,
        ⟨"Monitoring", "Destination details", "-"⟩]⟩], .ok ()) := by
  rfl

/-- C8 counterexample: on the (single) file `a-data.jsonb-data.json` the code
derives the title `Ab Data.json Specification` by removing the FIRST
occurrence of `-data.json`, while stripping the suffix as the claim states
would give `A Data.jsonb Specification`. -/
theorem C8_counterexample :
    deriveTitleSpec "a-data.jsonb-data.json" = "A Data.jsonb Specification" ∧
    (loadDataFiles ["a-data.jsonb-data.json"]).map LoadedEntry.title =
      ["Ab Data.json Specification"] ∧
    ("Ab Data.json Specification" : String) ≠ "A Data.jsonb Specification" := by
  exact ⟨by decide, by decide, by decide⟩

/-- C8 (amended): auto-discovery loads exactly the files ending in
`-data.json`, sorted lexicographically and independent of the order the
filesystem returns them; each title comes from removing the first occurrence
of `-data.json` (which coincides with suffix-stripping whenever the marker
occurs once), hyphen-splitting, capitalizing, joining with spaces and
appending ` Specification`; section numbers are assigned sequentially; and on
`["b-data.json","a-data.json"]` the result is `a-data.json` first with title
`A Specification`, then `b-data.json` with `B Specification`. -/
theorem C8_loadDataFiles (files files2 : List String) (hperm : files.Perm files2) :
    loadDataFiles files = loadDataFiles files2 ∧
    (loadDataFiles files).map LoadedEntry.filename =
      List.insertionSort (fun a b => fileLe a b = true)
        (files.filter (fun f => endsWithS f "-data.json")) ∧
    List.Sorted (fun a b => fileLe a b = true)
      ((loadDataFiles files).map LoadedEntry.filename) ∧
    (loadDataFiles files).map LoadedEntry.title =
      ((loadDataFiles files).map LoadedEntry.filename).map deriveTitle ∧
    (loadDataFiles files).map LoadedEntry.sectionNumber =
      (List.range (loadDataFiles files).length).map (fun i => "2.2." ++ toString (i + 1)) ∧
    loadDataFiles ["b-data.json", "a-data.json"] =
      [⟨"a-data.json", "A Specification", "2.2.1"⟩,
       ⟨"b-data.json", "B Specification", "2.2.2"⟩] := by
  have hfn : ∀ fs : List String, (loadDataFiles fs).map LoadedEntry.filename =
      List.insertionSort (fun a b => fileLe a b = true)
        (fs.filter (fun f => endsWithS f "-data.json")) := by
    intro fs
    unfold loadDataFiles
    rw [List.map_map]
    exact List.enum_map_snd _
  refine ⟨?_, hfn files, ?_, ?_, ?_, by decide⟩
  · unfold loadDataFiles
    have hso1 := List.sorted_insertionSort (fun a b : String => fileLe a b = true)
      (files.filter (fun f => endsWithS f "-data.json"))
    have hso2 := List.sorted_insertionSort (fun a b : String => fileLe a b = true)
      (files2.filter (fun f => endsWithS f "-data.json"))
    have hs : List.insertionSort (fun a b => fileLe a b = true)
        (files.filter (fun f => endsWithS f "-data.json")) =
        List.insertionSort (fun a b => fileLe a b = true)
          (files2.filter (fun f => endsWithS f "-data.json")) :=
      List.eq_of_perm_of_sorted
        ((List.perm_insertionSort _ _).trans
          ((hperm.filter _).trans (List.perm_insertionSort _ _).symm)) hso1 hso2
    rw [hs]
  · rw [hfn files]
    exact List.sorted_insertionSort _ _
  · unfold loadDataFiles
    rw [List.map_map, List.map_map, List.map_map]
    rfl
  · unfold loadDataFiles
    rw [List.map_map, List.length_map, List.enum_length, ← List.enum_map_fst, List.map_map]
    rfl

/-- C8 witness: the amended theorem applied to the two-file set presented in
opposite filesystem orders. -/
theorem C8_witness :
    loadDataFiles ["b-data.json", "a-data.json"] =
      loadDataFiles ["a-data.json", "b-data.json"] :=
  (C8_loadDataFiles ["b-data.json", "a-data.json"] ["a-data.json", "b-data.json"]
    (List.Perm.swap "a-data.json" "b-data.json" [])).1

end DocGen
